import Mathlib

/-! ProducerConsumer: the bounded circular buffer of `warehouse.cpp`

A shallow embedding of `class Warehouse` (warehouse.cpp, lines 72-116) and of
the preprocessor block that fixes its capacity `WSIZE` (lines 11-16).

Modelling choices.

* `WSIZE` is a macro, so the capacity is a parameter `W : Nat` of every
  operation.  The source refuses to build with `WSIZE < 8`, hence theorems
  assume `8 ≤ W`.
* The element type `Vehicle *` is an arbitrary type `α`; the buffer never looks
  inside an element.
* `std::array<Vehicle *, WSIZE> buffer_` is a `List α`.  The constructor leaves
  it uninitialised, so the fresh warehouse takes its indeterminate contents
  `junk` as an argument.
* `head_`, `tail_`, `size_` are `size_t`; they are `Nat` here.  No operation
  of the two methods can wrap: `size_++` runs under `size_ < WSIZE`,
  `size_--` under `size_ > 0`, and `tail_ + 1`, `head_ + 1` are computed
  after the index was used to access the array, so it is below the length of
  the array whenever the call has not already left defined behaviour.
* `mtx_` is held from the moment the wait predicate is found true until the
  function returns, so the body of `produce` / `consume` is one atomic step.
  A call whose wait predicate is false stays in `cv_.wait` and changes
  nothing: outcome `blocked`.  An index outside the array is undefined
  behaviour in C++: outcome `fault`.
* What the queue holds and returns depends only on the order of these atomic
  steps.  Which call gets to run depends on `cv_` as well: the second part of
  the file puts threads, the set of threads blocked on `cv_` and
  `cv_.notify_one()` on top of the two methods.
-/

set_option linter.dupNamespace false

namespace ProducerConsumer

/-- Result of attempting one call on the warehouse. -/
inductive Outcome (β : Type) where
  | blocked : Outcome β
  | fault : Outcome β
  | done (r : β) : Outcome β
  deriving DecidableEq, Repr

/-- The data members of `class Warehouse` (lines 75-76). -/
structure Warehouse (α : Type) where
  buffer_ : List α
  head_ : Nat
  tail_ : Nat
  size_ : Nat
  deriving DecidableEq, Repr

/-- The constructor `explicit Warehouse() : head_(0), tail_(0), size_(0) {}`
(line 82); `junk` is the indeterminate initial content of `buffer_`. -/
def Warehouse.Warehouse {α : Type} (junk : List α) : Warehouse α :=
  { buffer_ := junk, head_ := 0, tail_ := 0, size_ := 0 }

/-- The method `void produce(Vehicle *vehicle)` (lines 89-100). -/
def produce {α : Type} (W : Nat) (w : Warehouse α) (vehicle : α) :
    Outcome (Warehouse α) :=
  if w.size_ < W then
    if w.tail_ < w.buffer_.length then
      .done { buffer_ := w.buffer_.set w.tail_ vehicle
              head_ := w.head_
              tail_ := (w.tail_ + 1) % W
              size_ := w.size_ + 1 }
    else .fault
  else .blocked

/-- The method `Vehicle *consume()` (lines 103-115): the returned vehicle and
the state left behind. -/
def consume {α : Type} (W : Nat) (w : Warehouse α) : Outcome (α × Warehouse α) :=
  if 0 < w.size_ then
    match w.buffer_[w.head_]? with
    | some vehicle =>
      .done (vehicle, { buffer_ := w.buffer_
                        head_ := (w.head_ + 1) % W
                        tail_ := w.tail_
                        size_ := w.size_ - 1 })
    | none => .fault
  else .blocked

/-! ## Sequences of calls -/

/-- One completed call on the warehouse, as seen from outside. -/
inductive Op (α : Type) where
  | produce (vehicle : α) : Op α
  | consume : Op α
  deriving DecidableEq, Repr

/-- Runs the calls `ops` one after the other, in the order in which their
critical sections are entered, and collects the vehicles returned by the
`consume` calls in that order.  The run stops with `blocked` (or `fault`) at the
first call that cannot complete. -/
def run {α : Type} (W : Nat) : Warehouse α → List (Op α) →
    Outcome (Warehouse α × List α)
  | w, [] => .done (w, [])
  | w, .produce vehicle :: ops =>
    match produce W w vehicle with
    | .done w1 => run W w1 ops
    | .blocked => .blocked
    | .fault => .fault
  | w, .consume :: ops =>
    match consume W w with
    | .done (vehicle, w1) =>
      match run W w1 ops with
      | .done (w2, out) => .done (w2, vehicle :: out)
      | .blocked => .blocked
      | .fault => .fault
    | .blocked => .blocked
    | .fault => .fault

/-- The vehicles handed to the `produce` calls of `ops`, in call order. -/
def produced {α : Type} : List (Op α) → List α
  | [] => []
  | .produce vehicle :: ops => vehicle :: produced ops
  | .consume :: ops => produced ops

/-- Number of `produce` calls in `ops`. -/
def produceCount {α : Type} : List (Op α) → Nat
  | [] => 0
  | .produce _ :: ops => produceCount ops + 1
  | .consume :: ops => produceCount ops

/-- Number of `consume` calls in `ops`. -/
def consumeCount {α : Type} : List (Op α) → Nat
  | [] => 0
  | .produce _ :: ops => consumeCount ops
  | .consume :: ops => consumeCount ops + 1

/-- States reachable from the constructed warehouse by completed `produce` and
`consume` calls. -/
inductive Reachable {α : Type} (W : Nat) : Warehouse α → Prop where
  | init (junk : List α) (hlen : junk.length = W) :
      Reachable W (Warehouse.Warehouse junk)
  | produce {w w1 : Warehouse α} {vehicle : α} :
      Reachable W w → produce W w vehicle = .done w1 → Reachable W w1
  | consume {w w1 : Warehouse α} {vehicle : α} :
      Reachable W w → consume W w = .done (vehicle, w1) → Reachable W w1

/-- The slots that hold a vehicle not yet consumed, oldest first:
`buffer_[head_]`, `buffer_[head_ + 1]`, ..., `buffer_[head_ + size_ - 1]`,
indices taken modulo `W`. -/
def live {α : Type} (W : Nat) (w : Warehouse α) : List α :=
  (List.range w.size_).filterMap (fun i => w.buffer_[(w.head_ + i) % W]?)

/-- The state `produce` leaves behind when it completes. -/
def afterProduce {α : Type} (W : Nat) (w : Warehouse α) (vehicle : α) :
    Warehouse α :=
  { buffer_ := w.buffer_.set w.tail_ vehicle
    head_ := w.head_
    tail_ := (w.tail_ + 1) % W
    size_ := w.size_ + 1 }

/-- The state `consume` leaves behind when it completes. -/
def afterConsume {α : Type} (W : Nat) (w : Warehouse α) : Warehouse α :=
  { buffer_ := w.buffer_
    head_ := (w.head_ + 1) % W
    tail_ := w.tail_
    size_ := w.size_ - 1 }

/-! ## Well-formed states -/

/-- The representation invariant of the ring buffer. -/
structure WF {α : Type} (W : Nat) (w : Warehouse α) : Prop where
  len : w.buffer_.length = W
  size_le : w.size_ ≤ W
  head_lt : w.head_ < W
  tail_eq : w.tail_ = (w.head_ + w.size_) % W

/-! ## The state machine of the specification -/

/-- The three states of the queue named by the specification. -/
inductive QState where
  | EMPTY
  | PARTIAL
  | FULL
  deriving DecidableEq, Repr

/-- The classification of a warehouse: `EMPTY` when `size_ = 0`, `PARTIAL` when
`0 < size_ < W`, `FULL` when `size_ = W`; a state with `size_ > W` has no
class. -/
def classify {α : Type} (W : Nat) (w : Warehouse α) : Option QState :=
  if w.size_ = 0 then some .EMPTY
  else if w.size_ < W then some .PARTIAL
  else if w.size_ = W then some .FULL
  else none

/-! ## Configuration of the capacity -/

/-- The failure of the build when the capacity is too small:
`#error WSIZE shall be at least 8` (line 15). -/
inductive ConfigurationError where
  | wsizeTooSmall
  deriving DecidableEq, Repr

/-- A value given to the macro `WSIZE` from outside: a decimal literal, with or
without a minus sign in front, of absolute value below `2 ^ 63`.  In an `#elif`
expression such a literal has type `intmax_t`, which has at least 64 bits, and
so has its negation: the preprocessor computes with these values as with the
integers. -/
structure MacroValue where
  value : Int
  lower : -9223372036854775808 < value
  upper : value < 9223372036854775808

/-- The preprocessor block of lines 11-16.  `defined` is the value given to the
macro `WSIZE` from outside, `none` when it is not defined.  The result is the
value of `WSIZE` after line 16, or the `#error` of line 15, which ends the
build.  Only this block is described: whether the implementation can build
`std::array<Vehicle *, WSIZE>` for a large `WSIZE` is not. -/
def WSIZE (defined : Option MacroValue) : Except ConfigurationError Nat :=
  match defined with
  | none => .ok 8
  | some n => if n.value < 8 then .error .wsizeTooSmall else .ok n.value.toNat

/-- The capacities named by the specification, as values of the macro. -/
def capacity0 : MacroValue := ⟨0, by decide, by decide⟩

/-- Capacity 1. -/
def capacity1 : MacroValue := ⟨1, by decide, by decide⟩

/-- Capacity 7. -/
def capacity7 : MacroValue := ⟨7, by decide, by decide⟩

/-- Capacity 8. -/
def capacity8 : MacroValue := ⟨8, by decide, by decide⟩

/-- The value `-1`, as in `-DWSIZE=-1`. -/
def capacityMinus1 : MacroValue := ⟨-1, by decide, by decide⟩

/-! ## Threads, `mtx_` and `cv_`

The two methods are the only code that touches the warehouse, and each holds
`mtx_` from its first line to its return, except while it is blocked inside
`cv_.wait`.  An execution of the program is therefore a sequence of events, each
of them one thread holding `mtx_`: it evaluates the predicate of `cv_.wait`, and
either runs the rest of the method, `cv_.notify_one()` included, or blocks on
`cv_`.  `cv_.wait(lock, pred)` is `while (!pred()) wait(lock);`: a thread that
was unblocked has to take `mtx_` again and evaluates the predicate again.
Wake-ups without a notification, which `std::condition_variable` allows but
never promises, are not among the events, so every execution below is an
execution of the program. -/

/-- Where a thread stands: outside both methods (`idle`), blocked on `cv_`
inside `produce(vehicle)` or inside `consume()` (`waiting`), or unblocked by a
`notify_one` and about to take `mtx_` again (`notified`). -/
inductive Thread (α : Type) where
  | idle : Thread α
  | waitingProduce (vehicle : α) : Thread α
  | notifiedProduce (vehicle : α) : Thread α
  | waitingConsume : Thread α
  | notifiedConsume : Thread α
  deriving DecidableEq, Repr

/-- Whether the thread is blocked on `cv_`. -/
def Thread.waiting {α : Type} : Thread α → Bool
  | .waitingProduce _ => true
  | .waitingConsume => true
  | _ => false

/-- The call `cv_.notify_one()` (lines 99 and 113): when threads are blocked on
`cv_` it unblocks one of them, the thread `pick` that the implementation
chooses; when none is blocked it does nothing.  The result is `none` when
threads are blocked and `pick` is not one of them. -/
def notifyOne {α : Type} (threads : List (Thread α)) (pick : Nat) :
    Option (List (Thread α)) :=
  if threads.any Thread.waiting then
    match threads[pick]? with
    | some (.waitingProduce vehicle) =>
      some (threads.set pick (.notifiedProduce vehicle))
    | some .waitingConsume => some (threads.set pick .notifiedConsume)
    | _ => none
  else some threads

/-- One warehouse shared by a list of threads; `returned` records, oldest
first, which thread got which vehicle from `consume`. -/
structure System (α : Type) where
  warehouse : Warehouse α
  threads : List (Thread α)
  returned : List (Nat × α)
  deriving DecidableEq, Repr

/-- Thread `t` holds `mtx_` inside `produce(vehicle)` (lines 91-99): when the
predicate holds it stores the vehicle, notifies and returns; otherwise it
blocks on `cv_` and the warehouse is left as it was. -/
def enterProduce {α : Type} (W : Nat) (s : System α) (t : Nat) (vehicle : α)
    (pick : Nat) : Option (System α) :=
  match produce W s.warehouse vehicle with
  | .done w1 =>
    match notifyOne (s.threads.set t .idle) pick with
    | some threads => some { warehouse := w1, threads := threads,
                             returned := s.returned }
    | none => none
  | .blocked =>
    some { warehouse := s.warehouse,
           threads := s.threads.set t (.waitingProduce vehicle),
           returned := s.returned }
  | .fault => none

/-- Thread `t` holds `mtx_` inside `consume()` (lines 105-114): when the
predicate holds it takes the vehicle at `head_`, notifies and returns it;
otherwise it blocks on `cv_` and the warehouse is left as it was. -/
def enterConsume {α : Type} (W : Nat) (s : System α) (t : Nat) (pick : Nat) :
    Option (System α) :=
  match consume W s.warehouse with
  | .done (vehicle, w1) =>
    match notifyOne (s.threads.set t .idle) pick with
    | some threads => some { warehouse := w1, threads := threads,
                             returned := s.returned ++ [(t, vehicle)] }
    | none => none
  | .blocked =>
    some { warehouse := s.warehouse,
           threads := s.threads.set t .waitingConsume,
           returned := s.returned }
  | .fault => none

/-- The events of an execution: an idle thread `t` calls `produce(vehicle)` or
`consume()`, or a notified thread `t` takes `mtx_` again.  `pick` is the thread
that the `notify_one` of this event unblocks, if the event gets that far. -/
inductive Event (α : Type) where
  | callProduce (t : Nat) (vehicle : α) (pick : Nat) : Event α
  | callConsume (t : Nat) (pick : Nat) : Event α
  | resume (t : Nat) (pick : Nat) : Event α
  deriving DecidableEq, Repr

/-- One event; `none` when the event cannot happen in this state. -/
def step {α : Type} (W : Nat) (s : System α) : Event α → Option (System α)
  | .callProduce t vehicle pick =>
    match s.threads[t]? with
    | some .idle => enterProduce W s t vehicle pick
    | _ => none
  | .callConsume t pick =>
    match s.threads[t]? with
    | some .idle => enterConsume W s t pick
    | _ => none
  | .resume t pick =>
    match s.threads[t]? with
    | some (.notifiedProduce vehicle) => enterProduce W s t vehicle pick
    | some .notifiedConsume => enterConsume W s t pick
    | _ => none

/-- A sequence of events, from left to right. -/
def exec {α : Type} (W : Nat) : System α → List (Event α) → Option (System α)
  | s, [] => some s
  | s, e :: es =>
    match step W s e with
    | some s1 => exec W s1 es
    | none => none

/-- The program after `Warehouse warehouse;` with `n` threads started and none
of them inside a method yet. -/
def start {α : Type} (junk : List α) (n : Nat) : System α :=
  { warehouse := Warehouse.Warehouse junk, threads := List.replicate n .idle,
    returned := [] }

/-! ## Example runs with `WSIZE = 8` -/

/-- The buffer content of the examples before any call: eight slots. -/
def junk8 : List Nat := [0, 0, 0, 0, 0, 0, 0, 0]

/-- Fifteen calls that fill the buffer, take vehicles out and go around
the end of the array: `tail_` wraps from 7 to 0 and `head_` is at 5 at the
end. -/
def wrapOps : List (Op Nat) :=
  [.produce 1, .produce 2, .produce 3, .produce 4, .produce 5, .produce 6,
   .produce 7, .produce 8, .consume, .consume, .consume, .produce 9,
   .produce 10, .consume, .consume]

/-- The state at the end of `wrapOps`. -/
def wrapState : Warehouse Nat :=
  { buffer_ := [9, 10, 3, 4, 5, 6, 7, 8], head_ := 5, tail_ := 2, size_ := 5 }

/-- The calls of `wrapOps` followed by five `consume` calls that drain the
queue; `head_` wraps from 7 to 0. -/
def drainOps : List (Op Nat) :=
  wrapOps ++ [.consume, .consume, .consume, .consume, .consume]

/-- The state at the end of `drainOps`. -/
def drainState : Warehouse Nat :=
  { buffer_ := [9, 10, 3, 4, 5, 6, 7, 8], head_ := 2, tail_ := 2, size_ := 0 }

/-- The state after `produce 1` on the constructed warehouse. -/
def oneState : Warehouse Nat :=
  { buffer_ := [1, 0, 0, 0, 0, 0, 0, 0], head_ := 0, tail_ := 1, size_ := 1 }

/-- The state after `produce 1`, `produce 2` on the constructed warehouse. -/
def twoState : Warehouse Nat :=
  { buffer_ := [1, 2, 0, 0, 0, 0, 0, 0], head_ := 0, tail_ := 2, size_ := 2 }

/-- The state after `produce 1`, `produce 2`, `consume` on the constructed
warehouse. -/
def twoOneState : Warehouse Nat :=
  { buffer_ := [1, 2, 0, 0, 0, 0, 0, 0], head_ := 1, tail_ := 2, size_ := 1 }

/-! ## Example executions with `WSIZE = 8` and several threads -/

/-- The eight vehicles `1, ..., 8` in the buffer. -/
def buffer8 : List Nat := [1, 2, 3, 4, 5, 6, 7, 8]

/-- Thread 0 is the producer and threads 1 to 9 are consumers, as `main` starts
them for the argument 9.  The nine consumers call `consume()` on the empty queue
and block; the producer stores eight vehicles, its notifications unblocking
consumers 1 to 8, none of which has taken `mtx_` again yet; the producer calls
`produce(9)` and blocks. -/
def fillEvents9 : List (Event Nat) :=
  ((List.range 9).map fun i => Event.callConsume (i + 1) 0) ++
  ((List.range 8).map fun i => Event.callProduce 0 (i + 1) (i + 1)) ++
  [.callProduce 0 9 0]

/-- The state after `fillEvents9`: the queue is full, the producer and
consumer 9 are blocked on `cv_`. -/
def fullSystem9 : System Nat :=
  { warehouse := { buffer_ := buffer8, head_ := 0, tail_ := 0, size_ := 8 },
    threads := .waitingProduce 9 ::
      (List.replicate 8 .notifiedConsume ++ [.waitingConsume]),
    returned := [] }

/-- The state after consumer 1 has completed its `consume()` in `fullSystem9`
and its `notify_one` has unblocked consumer 9. -/
def absorbedSystem9 : System Nat :=
  { warehouse := { buffer_ := buffer8, head_ := 1, tail_ := 0, size_ := 7 },
    threads := [.waitingProduce 9, .idle] ++ List.replicate 8 .notifiedConsume,
    returned := [(1, 1)] }

/-- The events of `fillEvents9` with sixteen consumers, threads 1 to 16, as
`main` starts them for the argument 16. -/
def fillEvents16 : List (Event Nat) :=
  ((List.range 16).map fun i => Event.callConsume (i + 1) 0) ++
  ((List.range 8).map fun i => Event.callProduce 0 (i + 1) (i + 1)) ++
  [.callProduce 0 9 0]

/-- The state after `fillEvents16`: the queue is full, consumers 1 to 8 are
unblocked, the producer and consumers 9 to 16 are blocked on `cv_`. -/
def fullSystem16 : System Nat :=
  { warehouse := { buffer_ := buffer8, head_ := 0, tail_ := 0, size_ := 8 },
    threads := .waitingProduce 9 ::
      (List.replicate 8 .notifiedConsume ++ List.replicate 8 .waitingConsume),
    returned := [] }

/-- The state after consumer 1 has completed its `consume()` in `fullSystem16`
and its `notify_one` has unblocked consumer 9. -/
def afterOneConsume16 : System Nat :=
  { warehouse := { buffer_ := buffer8, head_ := 1, tail_ := 0, size_ := 7 },
    threads := [.waitingProduce 9, .idle] ++
      (List.replicate 8 .notifiedConsume ++ List.replicate 7 .waitingConsume),
    returned := [(1, 1)] }

/-- Consumers 2 to 8 complete their `consume()`, their notifications unblocking
consumers 10 to 16; consumers 9 to 16 take `mtx_` again, find the queue empty
and block again; consumers 1 to 8 call `consume()` again and block. -/
def drainEvents16 : List (Event Nat) :=
  ((List.range 7).map fun i => Event.resume (i + 2) (i + 10)) ++
  ((List.range 8).map fun i => Event.resume (i + 9) 0) ++
  ((List.range 8).map fun i => Event.callConsume (i + 1) 0)

/-- The state after `drainEvents16`: the queue is empty and every thread is
blocked on `cv_`. -/
def deadlock16 : System Nat :=
  { warehouse := { buffer_ := buffer8, head_ := 0, tail_ := 0, size_ := 0 },
    threads := .waitingProduce 9 :: List.replicate 16 .waitingConsume,
    returned := [(1, 1), (2, 2), (3, 3), (4, 4), (5, 5), (6, 6), (7, 7), (8, 8)] }

/-- The mirror image: thread 0 is the only consumer and threads 1 to 16 are
producers.  Producer 1 stores the vehicles 1 to 8; the sixteen producers call
`produce` with the vehicles 11 to 26 on the full queue and block; the consumer
takes the eight vehicles, its notifications unblocking producers 1 to 8, none
of which has taken `mtx_` again yet; the consumer calls `consume()` on the empty
queue and blocks. -/
def mirrorFillEvents : List (Event Nat) :=
  ((List.range 8).map fun i => Event.callProduce 1 (i + 1) 0) ++
  ((List.range 16).map fun i => Event.callProduce (i + 1) (i + 11) 0) ++
  ((List.range 8).map fun i => Event.callConsume 0 (i + 1)) ++
  [.callConsume 0 0]

/-- The state after `mirrorFillEvents`: the queue is empty, the consumer and
producers 9 to 16 are blocked on `cv_`. -/
def mirrorEmpty : System Nat :=
  { warehouse := { buffer_ := buffer8, head_ := 0, tail_ := 0, size_ := 0 },
    threads := .waitingConsume ::
      (((List.range 8).map fun i => Thread.notifiedProduce (i + 11)) ++
       ((List.range 8).map fun i => Thread.waitingProduce (i + 19))),
    returned := [(0, 1), (0, 2), (0, 3), (0, 4), (0, 5), (0, 6), (0, 7), (0, 8)] }

/-- The state after producer 1 has completed its `produce(11)` in `mirrorEmpty`
and its `notify_one` has unblocked producer 9. -/
def mirrorAfterOneProduce : System Nat :=
  { warehouse := { buffer_ := [11, 2, 3, 4, 5, 6, 7, 8], head_ := 0, tail_ := 1,
                   size_ := 1 },
    threads := [.waitingConsume, .idle] ++
      (((List.range 8).map fun i => Thread.notifiedProduce (i + 12)) ++
       ((List.range 7).map fun i => Thread.waitingProduce (i + 20))),
    returned := [(0, 1), (0, 2), (0, 3), (0, 4), (0, 5), (0, 6), (0, 7), (0, 8)] }

theorem WF.tail_lt {α : Type} {W : Nat} {w : Warehouse α} (h : WF W w) :
    w.tail_ < W := by
  rw [h.tail_eq]
  exact Nat.mod_lt _ (Nat.lt_of_le_of_lt (Nat.zero_le _) h.head_lt)

theorem WF_init {α : Type} {W : Nat} (hW : 0 < W) (junk : List α)
    (hlen : junk.length = W) : WF W (Warehouse.Warehouse junk) := by
  refine ⟨hlen, Nat.zero_le _, hW, ?_⟩
  simp [Warehouse.Warehouse, Nat.mod_eq_of_lt hW]

/-- Two offsets below the capacity name different slots. -/
theorem slot_ne {W h i j : Nat} (hij : i < j) (hj : j < W) :
    (h + i) % W ≠ (h + j) % W := by
  intro heq
  have h1 : i % W = j % W := Nat.ModEq.add_left_cancel' h heq
  rw [Nat.mod_eq_of_lt (Nat.lt_trans hij hj), Nat.mod_eq_of_lt hj] at h1
  omega

theorem live_length {α : Type} {W : Nat} {w : Warehouse α} (h : WF W w) :
    (live W w).length = w.size_ := by
  have hW : 0 < W := Nat.lt_of_le_of_lt (Nat.zero_le _) h.head_lt
  have key : ∀ n : Nat,
      ((List.range n).filterMap
        (fun i => w.buffer_[(w.head_ + i) % W]?)).length = n := by
    intro n
    induction n with
    | zero => simp
    | succ n ih =>
      have hlt : (w.head_ + n) % W < w.buffer_.length := by
        rw [h.len]; exact Nat.mod_lt _ hW
      rw [List.range_succ, List.filterMap_append, List.length_append, ih]
      simp [List.filterMap_cons, List.getElem?_eq_getElem hlt]
  exact key w.size_

theorem produce_eq_done {α : Type} {W : Nat} {w w1 : Warehouse α} {v : α}
    (h : produce W w v = .done w1) :
    w.size_ < W ∧ w.tail_ < w.buffer_.length ∧ w1 = afterProduce W w v := by
  unfold produce at h
  split at h
  · split at h
    · injection h with h
      exact ⟨by assumption, by assumption, h.symm⟩
    · cases h
  · cases h

theorem consume_eq_done {α : Type} {W : Nat} {w w1 : Warehouse α} {v : α}
    (h : consume W w = .done (v, w1)) :
    0 < w.size_ ∧ w.buffer_[w.head_]? = some v ∧ w1 = afterConsume W w := by
  unfold consume at h
  split at h
  · split at h
    · injection h with h
      injection h with h1 h2
      subst h1
      exact ⟨by assumption, by assumption, h2.symm⟩
    · cases h
  · cases h

theorem produce_done {α : Type} {W : Nat} {w : Warehouse α} (h : WF W w)
    (hs : w.size_ < W) (v : α) : produce W w v = .done (afterProduce W w v) := by
  have ht : w.tail_ < w.buffer_.length := by rw [h.len]; exact h.tail_lt
  simp [produce, afterProduce, hs, ht]

theorem consume_done {α : Type} {W : Nat} {w : Warehouse α} (h : WF W w)
    (hs : 0 < w.size_) :
    ∃ v, w.buffer_[w.head_]? = some v ∧
      consume W w = .done (v, afterConsume W w) := by
  have hh : w.head_ < w.buffer_.length := by rw [h.len]; exact h.head_lt
  refine ⟨w.buffer_[w.head_], List.getElem?_eq_getElem hh, ?_⟩
  simp [consume, afterConsume, hs, List.getElem?_eq_getElem hh]

theorem WF_afterProduce {α : Type} {W : Nat} {w : Warehouse α} (h : WF W w)
    (hs : w.size_ < W) (v : α) : WF W (afterProduce W w v) := by
  have hW : 0 < W := Nat.lt_of_le_of_lt (Nat.zero_le _) h.head_lt
  refine ⟨?_, hs, h.head_lt, ?_⟩
  · simp [afterProduce, h.len]
  · show (w.tail_ + 1) % W = (w.head_ + (w.size_ + 1)) % W
    rw [h.tail_eq, Nat.mod_add_mod, Nat.add_assoc]

theorem WF_afterConsume {α : Type} {W : Nat} {w : Warehouse α} (h : WF W w)
    (hs : 0 < w.size_) : WF W (afterConsume W w) := by
  have hW : 0 < W := Nat.lt_of_le_of_lt (Nat.zero_le _) h.head_lt
  refine ⟨h.len, ?_, Nat.mod_lt _ hW, ?_⟩
  · show w.size_ - 1 ≤ W
    have := h.size_le
    omega
  · show w.tail_ = ((w.head_ + 1) % W + (w.size_ - 1)) % W
    rw [h.tail_eq, Nat.mod_add_mod]
    congr 1
    omega

theorem live_afterProduce {α : Type} {W : Nat} {w : Warehouse α} (h : WF W w)
    (hs : w.size_ < W) (v : α) :
    live W (afterProduce W w v) = live W w ++ [v] := by
  have ht : w.tail_ < w.buffer_.length := by rw [h.len]; exact h.tail_lt
  show (List.range (w.size_ + 1)).filterMap
      (fun i => (w.buffer_.set w.tail_ v)[(w.head_ + i) % W]?) = _
  rw [List.range_succ, List.filterMap_append]
  congr 1
  · apply List.filterMap_congr
    intro i hi
    have hi : i < w.size_ := List.mem_range.mp hi
    have hne : w.tail_ ≠ (w.head_ + i) % W := by
      rw [h.tail_eq]
      exact fun e => slot_ne hi hs e.symm
    exact List.getElem?_set_ne hne
  · simp [List.filterMap_cons, ← h.tail_eq, ht]

theorem live_afterConsume {α : Type} {W : Nat} {w : Warehouse α} (h : WF W w)
    (hs : 0 < w.size_) {v : α} (hv : w.buffer_[w.head_]? = some v) :
    live W w = v :: live W (afterConsume W w) := by
  obtain ⟨n, hn⟩ : ∃ n, w.size_ = n + 1 := ⟨w.size_ - 1, by omega⟩
  show (List.range w.size_).filterMap
      (fun i => w.buffer_[(w.head_ + i) % W]?) =
    v :: (List.range (w.size_ - 1)).filterMap
      (fun i => w.buffer_[((w.head_ + 1) % W + i) % W]?)
  rw [hn, List.range_succ_eq_map, List.filterMap_cons, Nat.add_zero,
    Nat.mod_eq_of_lt h.head_lt, hv, List.filterMap_map, Nat.add_sub_cancel]
  show v :: _ = v :: _
  congr 1
  apply List.filterMap_congr
  intro i _
  show w.buffer_[(w.head_ + (i + 1)) % W]? = _
  rw [Nat.mod_add_mod]
  have e : w.head_ + (i + 1) = w.head_ + 1 + i := by omega
  rw [e]

/-! ## Reachable states and runs -/

theorem Reachable.wf {α : Type} {W : Nat} (hW : 0 < W) {w : Warehouse α}
    (hr : Reachable W w) : WF W w := by
  induction hr with
  | init junk hlen => exact WF_init hW junk hlen
  | produce _ hstep ih =>
    obtain ⟨hs, _, rfl⟩ := produce_eq_done hstep
    exact WF_afterProduce ih hs _
  | consume _ hstep ih =>
    obtain ⟨hs, _, rfl⟩ := consume_eq_done hstep
    exact WF_afterConsume ih hs

/-- What a completed run preserves: the representation invariant, the
order of the vehicles in flight, and the balance of the counter. -/
theorem run_done {α : Type} {W : Nat} (ops : List (Op α)) :
    ∀ (w w1 : Warehouse α) (out : List α), WF W w →
      run W w ops = .done (w1, out) →
      WF W w1 ∧ live W w ++ produced ops = out ++ live W w1 ∧
        w1.size_ + consumeCount ops = w.size_ + produceCount ops ∧
        out.length = consumeCount ops := by
  induction ops with
  | nil =>
    intro w w1 out hwf h
    simp only [run, Outcome.done.injEq, Prod.mk.injEq] at h
    obtain ⟨rfl, rfl⟩ := h
    simp [produced, consumeCount, produceCount, hwf]
  | cons op ops ih =>
    intro w w1 out hwf h
    cases op with
    | produce v =>
      simp only [run] at h
      cases hp : produce W w v with
      | blocked => rw [hp] at h; cases h
      | fault => rw [hp] at h; cases h
      | done w2 =>
        rw [hp] at h
        obtain ⟨hs, _, rfl⟩ := produce_eq_done hp
        obtain ⟨h1, h2, h3, h4⟩ := ih _ _ _ (WF_afterProduce hwf hs v) h
        rw [live_afterProduce hwf hs v] at h2
        refine ⟨h1, ?_, ?_, ?_⟩
        · simpa [produced] using h2
        · simp only [consumeCount, produceCount]
          have : (afterProduce W w v).size_ = w.size_ + 1 := rfl
          omega
        · simpa [consumeCount] using h4
    | consume =>
      simp only [run] at h
      cases hc : consume W w with
      | blocked => rw [hc] at h; cases h
      | fault => rw [hc] at h; cases h
      | done r =>
        obtain ⟨v, w2⟩ := r
        rw [hc] at h
        dsimp only at h
        obtain ⟨hs, hv, rfl⟩ := consume_eq_done hc
        cases hr : run W (afterConsume W w) ops with
        | blocked => rw [hr] at h; cases h
        | fault => rw [hr] at h; cases h
        | done r2 =>
          obtain ⟨w3, out2⟩ := r2
          rw [hr] at h
          dsimp only at h
          simp only [Outcome.done.injEq, Prod.mk.injEq] at h
          obtain ⟨rfl, rfl⟩ := h
          obtain ⟨h1, h2, h3, h4⟩ := ih _ _ _ (WF_afterConsume hwf hs) hr
          refine ⟨h1, ?_, ?_, ?_⟩
          · rw [live_afterConsume hwf hs hv]
            simpa [produced] using h2
          · simp only [consumeCount, produceCount]
            have : (afterConsume W w).size_ = w.size_ - 1 := rfl
            omega
          · simp [consumeCount, h4]

/-- A state reached by a completed run from a reachable state is reachable. -/
theorem run_reachable {α : Type} {W : Nat} (ops : List (Op α)) :
    ∀ (w w1 : Warehouse α) (out : List α), Reachable W w →
      run W w ops = .done (w1, out) → Reachable W w1 := by
  induction ops with
  | nil =>
    intro w w1 out hr h
    simp only [run, Outcome.done.injEq, Prod.mk.injEq] at h
    obtain ⟨rfl, rfl⟩ := h
    exact hr
  | cons op ops ih =>
    intro w w1 out hr h
    cases op with
    | produce v =>
      simp only [run] at h
      cases hp : produce W w v with
      | blocked => rw [hp] at h; cases h
      | fault => rw [hp] at h; cases h
      | done w2 =>
        rw [hp] at h
        exact ih _ _ _ (Reachable.produce hr hp) h
    | consume =>
      simp only [run] at h
      cases hc : consume W w with
      | blocked => rw [hc] at h; cases h
      | fault => rw [hc] at h; cases h
      | done r =>
        obtain ⟨v, w2⟩ := r
        rw [hc] at h
        dsimp only at h
        cases hr2 : run W w2 ops with
        | blocked => rw [hr2] at h; cases h
        | fault => rw [hr2] at h; cases h
        | done r2 =>
          obtain ⟨w3, out2⟩ := r2
          rw [hr2] at h
          dsimp only at h
          simp only [Outcome.done.injEq, Prod.mk.injEq] at h
          obtain ⟨rfl, rfl⟩ := h
          exact ih _ _ _ (Reachable.consume hr hc) hr2

/-- Two completed runs compose. -/
theorem run_append {α : Type} {W : Nat} (ops ops2 : List (Op α)) :
    ∀ (w w1 w2 : Warehouse α) (out1 out2 : List α),
      run W w ops = .done (w1, out1) → run W w1 ops2 = .done (w2, out2) →
      run W w (ops ++ ops2) = .done (w2, out1 ++ out2) := by
  induction ops with
  | nil =>
    intro w w1 w2 out1 out2 h h2
    simp only [run, Outcome.done.injEq, Prod.mk.injEq] at h
    obtain ⟨rfl, rfl⟩ := h
    simpa using h2
  | cons op ops ih =>
    intro w w1 w2 out1 out2 h h2
    cases op with
    | produce v =>
      simp only [run, List.cons_append] at h ⊢
      cases hp : produce W w v with
      | blocked => rw [hp] at h; cases h
      | fault => rw [hp] at h; cases h
      | done w3 =>
        rw [hp] at h
        exact ih _ _ _ _ _ h h2
    | consume =>
      simp only [run, List.cons_append] at h ⊢
      cases hc : consume W w with
      | blocked => rw [hc] at h; cases h
      | fault => rw [hc] at h; cases h
      | done r =>
        obtain ⟨v, w3⟩ := r
        rw [hc] at h
        dsimp only at h ⊢
        cases hr : run W w3 ops with
        | blocked => rw [hr] at h; cases h
        | fault => rw [hr] at h; cases h
        | done r2 =>
          obtain ⟨w4, out3⟩ := r2
          rw [hr] at h
          dsimp only at h
          simp only [Outcome.done.injEq, Prod.mk.injEq] at h
          obtain ⟨rfl, rfl⟩ := h
          have h3 : run W w3 (ops.append ops2) = .done (w2, out3 ++ out2) :=
            ih _ _ _ _ _ hr h2
          rw [h3]
          rfl

/-- Every reachable state is the end of a completed run from a constructed
warehouse. -/
theorem Reachable.exists_run {α : Type} {W : Nat} {w : Warehouse α}
    (hr : Reachable W w) :
    ∃ (junk : List α) (ops : List (Op α)) (out : List α),
      junk.length = W ∧ run W (Warehouse.Warehouse junk) ops = .done (w, out) := by
  induction hr with
  | init junk hlen => exact ⟨junk, [], [], hlen, rfl⟩
  | @produce w w1 v _ hstep ih =>
    obtain ⟨junk, ops, out, hlen, hrun⟩ := ih
    refine ⟨junk, ops ++ [Op.produce v], out ++ [], hlen, ?_⟩
    apply run_append _ _ _ _ _ _ _ hrun
    simp [run, hstep]
  | @consume w w1 v _ hstep ih =>
    obtain ⟨junk, ops, out, hlen, hrun⟩ := ih
    refine ⟨junk, ops ++ [Op.consume], out ++ [v], hlen, ?_⟩
    apply run_append _ _ _ _ _ _ _ hrun
    simp [run, hstep]

/-! ## The claims -/

/-- C1. Capacity bound and index validity: in every state reachable from the
constructed warehouse by completed `produce` and `consume` calls, `size_` is at
most `W`, `head_` and `tail_` are below `W`, and both are valid indices of
`buffer_`. -/
theorem capacity_bound_and_index_validity {α : Type} (W : Nat) (hW : 8 ≤ W)
    (w : Warehouse α) (hr : Reachable W w) :
    0 ≤ w.size_ ∧ w.size_ ≤ W ∧ w.head_ < W ∧ w.tail_ < W ∧
      w.buffer_.length = W ∧
      w.head_ < w.buffer_.length ∧ w.tail_ < w.buffer_.length := by
  have hwf : WF W w := hr.wf (by omega)
  have ht := hwf.tail_lt
  refine ⟨Nat.zero_le _, hwf.size_le, hwf.head_lt, ht, hwf.len, ?_, ?_⟩
  · rw [hwf.len]; exact hwf.head_lt
  · rw [hwf.len]; exact ht

/-- C2. FIFO: for every completed run of `produce` and `consume` calls from the
constructed warehouse, the vehicles returned by the `consume` calls, in the
order of the calls, are a prefix of the vehicles handed to the `produce` calls,
in the order of those calls; the rest of the produced vehicles is what is still
in the buffer, oldest first, `size_` of them. -/
theorem fifo_order {α : Type} (W : Nat) (hW : 8 ≤ W) (junk : List α)
    (hlen : junk.length = W) (ops : List (Op α)) (w : Warehouse α)
    (out : List α)
    (hrun : run W (Warehouse.Warehouse junk) ops = .done (w, out)) :
    out <+: produced ops ∧ produced ops = out ++ live W w ∧
      (live W w).length = w.size_ := by
  have hwf := WF_init (by omega : 0 < W) junk hlen
  obtain ⟨h1, h2, _, _⟩ := run_done ops _ _ _ hwf hrun
  have h0 : live W (Warehouse.Warehouse junk) = [] := by
    simp [live, Warehouse.Warehouse]
  rw [h0, List.nil_append] at h2
  exact ⟨⟨live W w, h2.symm⟩, h2, live_length h1⟩

/-- C3. No loss, no duplication: when a completed run from the constructed
warehouse ends with the queue drained (`size_ = 0`), the multiset of vehicles
returned by `consume` equals the multiset of vehicles handed to `produce`;
they are even returned in the order in which they were produced. -/
theorem no_loss_no_duplication {α : Type} (W : Nat) (hW : 8 ≤ W)
    (junk : List α) (hlen : junk.length = W) (ops : List (Op α))
    (w : Warehouse α) (out : List α)
    (hrun : run W (Warehouse.Warehouse junk) ops = .done (w, out))
    (hdrained : w.size_ = 0) :
    Multiset.ofList out = Multiset.ofList (produced ops) ∧
      out = produced ops := by
  have hwf := WF_init (by omega : 0 < W) junk hlen
  obtain ⟨_, h2, _, _⟩ := run_done ops _ _ _ hwf hrun
  have h0 : live W (Warehouse.Warehouse junk) = [] := by
    simp [live, Warehouse.Warehouse]
  have h1 : live W w = [] := by simp [live, hdrained]
  rw [h0, h1, List.nil_append, List.append_nil] at h2
  exact ⟨by rw [h2], h2.symm⟩

/-- C4. Count accounting: after every completed run from the constructed
warehouse, `size_` is the number of `produce` calls minus the number of
`consume` calls (which never exceeds it), every `consume` call returned one
vehicle, and when the two numbers are equal the queue is empty. -/
theorem count_accounting {α : Type} (W : Nat) (hW : 8 ≤ W) (junk : List α)
    (hlen : junk.length = W) (ops : List (Op α)) (w : Warehouse α)
    (out : List α)
    (hrun : run W (Warehouse.Warehouse junk) ops = .done (w, out)) :
    consumeCount ops ≤ produceCount ops ∧
      w.size_ = produceCount ops - consumeCount ops ∧
      out.length = consumeCount ops ∧
      (produceCount ops = consumeCount ops → w.size_ = 0) := by
  have hwf := WF_init (by omega : 0 < W) junk hlen
  obtain ⟨_, _, h3, h4⟩ := run_done ops _ _ _ hwf hrun
  have h0 : (Warehouse.Warehouse junk).size_ = 0 := rfl
  rw [h0] at h3
  refine ⟨by omega, by omega, h4, fun h => by omega⟩

theorem classify_of_wf {α : Type} {W : Nat} {w : Warehouse α} (h : WF W w) :
    (classify W w = some .EMPTY ↔ w.size_ = 0) ∧
      (classify W w = some .PARTIAL ↔ 0 < w.size_ ∧ w.size_ < W) ∧
      (classify W w = some .FULL ↔ 0 < w.size_ ∧ w.size_ = W) := by
  have hle := h.size_le
  unfold classify
  refine ⟨?_, ?_, ?_⟩
  · constructor
    · intro hc
      by_contra h0
      rw [if_neg h0] at hc
      split at hc <;> try split at hc
      all_goals simp at hc
    · intro h0; simp [h0]
  · constructor
    · intro hc
      split at hc
      · simp at hc
      · split at hc
        · omega
        · split at hc <;> simp at hc
    · rintro ⟨h0, h1⟩
      rw [if_neg (by omega), if_pos h1]
  · constructor
    · intro hc
      split at hc
      · simp at hc
      · split at hc
        · simp at hc
        · omega
    · rintro ⟨h0, h1⟩
      rw [if_neg (by omega), if_neg (by omega), if_pos h1]

/-- C8, as amended. State-machine transitions: in every reachable state a
completed `produce` moves the queue from EMPTY to PARTIAL, from PARTIAL to
PARTIAL or from PARTIAL to FULL, and in FULL it is blocked; a completed
`consume` moves the queue from FULL to PARTIAL, from PARTIAL to PARTIAL or from
PARTIAL to EMPTY, and in EMPTY it is blocked. -/
theorem state_machine_transitions {α : Type} (W : Nat) (hW : 8 ≤ W)
    (w : Warehouse α) (hr : Reachable W w) (v : α) :
    (∀ w1, produce W w v = .done w1 →
        classify W w ≠ some .FULL ∧
        ((classify W w = some .EMPTY ∧ classify W w1 = some .PARTIAL) ∨
         (classify W w = some .PARTIAL ∧ classify W w1 = some .PARTIAL) ∨
         (classify W w = some .PARTIAL ∧ classify W w1 = some .FULL))) ∧
      (classify W w = some .FULL → produce W w v = .blocked) ∧
      (∀ x w1, consume W w = .done (x, w1) →
        classify W w ≠ some .EMPTY ∧
        ((classify W w = some .FULL ∧ classify W w1 = some .PARTIAL) ∨
         (classify W w = some .PARTIAL ∧ classify W w1 = some .PARTIAL) ∨
         (classify W w = some .PARTIAL ∧ classify W w1 = some .EMPTY))) ∧
      (classify W w = some .EMPTY → consume W w = .blocked) := by
  have hpos : 0 < W := by omega
  have hwf := hr.wf hpos
  obtain ⟨cE, cP, cF⟩ := classify_of_wf hwf
  refine ⟨?_, ?_, ?_, ?_⟩
  · intro w1 hp
    obtain ⟨hs, _, rfl⟩ := produce_eq_done hp
    obtain ⟨dE, dP, dF⟩ := classify_of_wf (WF_afterProduce hwf hs v)
    have hsz : (afterProduce W w v).size_ = w.size_ + 1 := rfl
    rw [cE, cP, dP, dF, hsz]
    refine ⟨fun hF => ?_, ?_⟩
    · have := cF.mp hF
      omega
    · omega
  · intro hF
    have := cF.mp hF
    simp [produce, this.2]
  · intro x w1 hc
    obtain ⟨hs, _, rfl⟩ := consume_eq_done hc
    obtain ⟨dE, dP, dF⟩ := classify_of_wf (WF_afterConsume hwf hs)
    have hsz : (afterConsume W w).size_ = w.size_ - 1 := rfl
    have hle := hwf.size_le
    rw [cF, cP, dP, dE, hsz]
    refine ⟨fun hE => ?_, ?_⟩
    · have := cE.mp hE
      omega
    · omega
  · intro hE
    have := cE.mp hE
    simp [consume, this]

/-- C10. Ring-index relation: in every reachable state
`tail_ = (head_ + size_) % W`; `head_ = tail_` exactly when the queue is empty
or full; and the slot at `tail_` lies outside the live range, so a completed
`produce` leaves every slot that holds a vehicle not yet consumed, and the
vehicles in flight, as they were. -/
theorem ring_index_relation {α : Type} (W : Nat) (hW : 8 ≤ W)
    (w : Warehouse α) (hr : Reachable W w) (v : α) :
    w.tail_ = (w.head_ + w.size_) % W ∧
      (w.head_ = w.tail_ ↔ (w.size_ = 0 ∨ w.size_ = W)) ∧
      (w.size_ < W → ∀ i, i < w.size_ → (w.head_ + i) % W ≠ w.tail_) ∧
      (∀ w1, produce W w v = .done w1 →
        (∀ i, i < w.size_ →
          w1.buffer_[(w.head_ + i) % W]? = w.buffer_[(w.head_ + i) % W]?) ∧
        live W w1 = live W w ++ [v]) := by
  have hpos : 0 < W := by omega
  have hwf := hr.wf hpos
  have hout : w.size_ < W → ∀ i, i < w.size_ → (w.head_ + i) % W ≠ w.tail_ := by
    intro hs i hi
    rw [hwf.tail_eq]
    exact slot_ne hi hs
  refine ⟨hwf.tail_eq, ?_, hout, ?_⟩
  · rw [hwf.tail_eq]
    constructor
    · intro he
      by_contra hne
      have h0 : 0 < w.size_ := by omega
      have h1 : w.size_ < W := by have := hwf.size_le; omega
      apply slot_ne (h := w.head_) h0 h1
      rw [Nat.add_zero, Nat.mod_eq_of_lt hwf.head_lt]
      exact he
    · rintro (h0 | h0)
      · rw [h0, Nat.add_zero, Nat.mod_eq_of_lt hwf.head_lt]
      · rw [h0, Nat.add_mod_right, Nat.mod_eq_of_lt hwf.head_lt]
  · intro w1 hp
    obtain ⟨hs, _, rfl⟩ := produce_eq_done hp
    refine ⟨fun i hi => ?_, live_afterProduce hwf hs v⟩
    show (w.buffer_.set w.tail_ v)[(w.head_ + i) % W]? = _
    exact List.getElem?_set_ne (fun e => hout hs i hi e.symm)

/-! ## The claims at concrete inputs -/

theorem wrapOps_run :
    run 8 (Warehouse.Warehouse junk8) wrapOps = .done (wrapState, [1, 2, 3, 4, 5]) :=
  rfl

theorem drainOps_run :
    run 8 (Warehouse.Warehouse junk8) drainOps
      = .done (drainState, [1, 2, 3, 4, 5, 6, 7, 8, 9, 10]) :=
  rfl

theorem wrapState_reachable : Reachable 8 wrapState :=
  run_reachable wrapOps _ _ _ (Reachable.init junk8 rfl) wrapOps_run

theorem oneState_reachable : Reachable 8 oneState :=
  Reachable.produce (Reachable.init junk8 rfl) (rfl : produce 8 _ 1 = _)

theorem twoState_reachable : Reachable 8 twoState :=
  Reachable.produce oneState_reachable (rfl : produce 8 _ 2 = _)

/-- C1 at the end of `wrapOps`, after both indices went around the array. -/
theorem capacity_bound_and_index_validity_witness :
    0 ≤ wrapState.size_ ∧ wrapState.size_ ≤ 8 ∧ wrapState.head_ < 8 ∧
      wrapState.tail_ < 8 ∧ wrapState.buffer_.length = 8 ∧
      wrapState.head_ < wrapState.buffer_.length ∧
      wrapState.tail_ < wrapState.buffer_.length :=
  capacity_bound_and_index_validity 8 (by decide) wrapState wrapState_reachable

/-- C2 on `wrapOps`: fifteen calls, more than `WSIZE`, across the wrap-around
of `tail_`. -/
theorem fifo_order_witness :
    [1, 2, 3, 4, 5] <+: produced wrapOps ∧
      produced wrapOps = [1, 2, 3, 4, 5] ++ live 8 wrapState ∧
      (live 8 wrapState).length = wrapState.size_ :=
  fifo_order 8 (by decide) junk8 rfl wrapOps wrapState [1, 2, 3, 4, 5]
    wrapOps_run

/-- C3 on `drainOps`: ten vehicles produced, ten returned, queue drained. -/
theorem no_loss_no_duplication_witness :
    Multiset.ofList [1, 2, 3, 4, 5, 6, 7, 8, 9, 10]
        = Multiset.ofList (produced drainOps) ∧
      [1, 2, 3, 4, 5, 6, 7, 8, 9, 10] = produced drainOps :=
  no_loss_no_duplication 8 (by decide) junk8 rfl drainOps drainState
    [1, 2, 3, 4, 5, 6, 7, 8, 9, 10] drainOps_run rfl

/-- C4 on `wrapOps`: ten `produce` calls, five `consume` calls, five vehicles
left. -/
theorem count_accounting_witness :
    consumeCount wrapOps ≤ produceCount wrapOps ∧
      wrapState.size_ = produceCount wrapOps - consumeCount wrapOps ∧
      [1, 2, 3, 4, 5].length = consumeCount wrapOps :=
  have h := count_accounting 8 (by decide) junk8 rfl wrapOps wrapState
    [1, 2, 3, 4, 5] wrapOps_run
  ⟨h.1, h.2.1, h.2.2.1⟩

/-- C8 as stated fails: with capacity 8 the second `produce` on the constructed
warehouse completes in a PARTIAL state and leaves a PARTIAL state, which is
neither EMPTY to PARTIAL nor PARTIAL to FULL; the `consume` that follows goes
from PARTIAL to PARTIAL as well, neither FULL to PARTIAL nor PARTIAL to
EMPTY. -/
theorem state_machine_transitions_counterexample :
    Reachable 8 oneState ∧ produce 8 oneState 2 = .done twoState ∧
      ¬ ((classify 8 oneState = some .EMPTY ∧
            classify 8 twoState = some .PARTIAL) ∨
          (classify 8 oneState = some .PARTIAL ∧
            classify 8 twoState = some .FULL)) ∧
      Reachable 8 twoState ∧ consume 8 twoState = .done (1, twoOneState) ∧
      ¬ ((classify 8 twoState = some .FULL ∧
            classify 8 twoOneState = some .PARTIAL) ∨
          (classify 8 twoState = some .PARTIAL ∧
            classify 8 twoOneState = some .EMPTY)) :=
  ⟨oneState_reachable, rfl, by decide, twoState_reachable, rfl, by decide⟩

/-- C8 as amended, on the second `produce`: PARTIAL to PARTIAL. -/
theorem state_machine_transitions_witness :
    (classify 8 oneState = some .EMPTY ∧ classify 8 twoState = some .PARTIAL) ∨
      (classify 8 oneState = some .PARTIAL ∧
        classify 8 twoState = some .PARTIAL) ∨
      (classify 8 oneState = some .PARTIAL ∧ classify 8 twoState = some .FULL) :=
  ((state_machine_transitions 8 (by decide) oneState oneState_reachable 2).1
    twoState rfl).2

/-- C10 at the end of `wrapOps`: `tail_ = 2 = (5 + 5) % 8`. -/
theorem ring_index_relation_witness :
    wrapState.tail_ = (wrapState.head_ + wrapState.size_) % 8 ∧
      (wrapState.head_ = wrapState.tail_ ↔
        (wrapState.size_ = 0 ∨ wrapState.size_ = 8)) ∧
      live 8 (afterProduce 8 wrapState 11) = live 8 wrapState ++ [11] :=
  have h := ring_index_relation 8 (by decide) wrapState wrapState_reachable 11
  ⟨h.1, h.2.1, (h.2.2.2 _ rfl).2⟩

/-! ## The capacity fixed by the build -/

/-- C7. Construction validation: building the warehouse with capacity 0, 1 or
7, and with every capacity below 8, fails with the configuration error, so that
there is no capacity and no warehouse; with capacity 8, which is also the
capacity when `WSIZE` is not given, the build goes on with 8 slots and the
constructor yields an empty queue: `head_ = 0`, `tail_ = 0`, `size_ = 0`,
whatever the eight slots hold. -/
theorem construction_validation {α : Type} (c : MacroValue) (hc : c.value < 8)
    (junk : List α) (hlen : junk.length = 8) :
    WSIZE (some c) = .error .wsizeTooSmall ∧
      WSIZE (some capacity0) = .error .wsizeTooSmall ∧
      WSIZE (some capacity1) = .error .wsizeTooSmall ∧
      WSIZE (some capacity7) = .error .wsizeTooSmall ∧
      WSIZE (some capacity8) = .ok 8 ∧
      WSIZE none = .ok 8 ∧
      (Warehouse.Warehouse junk).head_ = 0 ∧
      (Warehouse.Warehouse junk).tail_ = 0 ∧
      (Warehouse.Warehouse junk).size_ = 0 ∧
      (Warehouse.Warehouse junk).buffer_.length = 8 ∧
      classify 8 (Warehouse.Warehouse junk) = some .EMPTY ∧
      Reachable 8 (Warehouse.Warehouse junk) := by
  refine ⟨by simp [WSIZE, hc], rfl, rfl, rfl, rfl, rfl,
    rfl, rfl, rfl, hlen, rfl, Reachable.init junk hlen⟩

/-- C7 with capacity 7, and capacity 8 with the eight slots of `junk8`. -/
theorem construction_validation_witness :
    WSIZE (some capacity7) = .error .wsizeTooSmall ∧
      WSIZE (some capacity8) = .ok 8 ∧
      (Warehouse.Warehouse junk8).head_ = 0 ∧
      (Warehouse.Warehouse junk8).tail_ = 0 ∧
      (Warehouse.Warehouse junk8).size_ = 0 :=
  have h := construction_validation capacity7 (by decide) junk8 rfl
  ⟨h.1, h.2.2.2.2.1, h.2.2.2.2.2.2.1, h.2.2.2.2.2.2.2.1, h.2.2.2.2.2.2.2.2.1⟩

/-- The value `-1` raises the `#error` as well. -/
theorem WSIZE_minus_one : WSIZE (some capacityMinus1) = .error .wsizeTooSmall :=
  rfl

/-! ## Lost wake-ups -/

/-- A thread that is blocked on `cv_` takes part in no event. -/
theorem step_eq_none_of_waiting {α : Type} {W : Nat} (s : System α)
    (h : ∀ th ∈ s.threads, th.waiting = true) (e : Event α) :
    step W s e = none := by
  have key : ∀ t : Nat, s.threads[t]? = none ∨
      ∃ th, s.threads[t]? = some th ∧ th.waiting = true := by
    intro t
    cases hth : s.threads[t]? with
    | none => exact Or.inl rfl
    | some th => exact Or.inr ⟨th, rfl, h th (List.getElem?_mem hth)⟩
  cases e with
  | callProduce t v pick =>
    rcases key t with h0 | ⟨th, h1, h2⟩
    · simp [step, h0]
    · cases th <;> simp_all [step, Thread.waiting]
  | callConsume t pick =>
    rcases key t with h0 | ⟨th, h1, h2⟩
    · simp [step, h0]
    · cases th <;> simp_all [step, Thread.waiting]
  | resume t pick =>
    rcases key t with h0 | ⟨th, h1, h2⟩
    · simp [step, h0]
    · cases th <;> simp_all [step, Thread.waiting]

/-- C5 on the program with one producer and sixteen consumers.  After eight
completed `produce` calls and no completed `consume` the queue is full and the
ninth `produce` blocks, leaving the warehouse as it was.  Then one `consume`
completes: `size_` is 7, below `WSIZE`, but its notification went to consumer 9
and the producer is still blocked on `cv_`, with no event of its own.  Seven
more `consume` calls later the queue is empty and all seventeen threads are
blocked on `cv_` for good: no event is possible. -/
theorem backpressure_lost_wakeup :
    exec 8 (start junk8 17) fillEvents16 = some fullSystem16 ∧
      fullSystem16.warehouse.size_ = 8 ∧
      fullSystem16.threads[0]? = some (.waitingProduce 9) ∧
      step 8 fullSystem16 (.resume 1 9) = some afterOneConsume16 ∧
      afterOneConsume16.returned = [(1, 1)] ∧
      afterOneConsume16.warehouse.size_ = 7 ∧
      afterOneConsume16.threads[0]? = some (.waitingProduce 9) ∧
      afterOneConsume16.threads[9]? = some .notifiedConsume ∧
      (∀ v pick, step 8 afterOneConsume16 (.callProduce 0 v pick) = none) ∧
      (∀ pick, step 8 afterOneConsume16 (.resume 0 pick) = none) ∧
      exec 8 afterOneConsume16 drainEvents16 = some deadlock16 ∧
      deadlock16.warehouse.size_ = 0 ∧
      deadlock16.threads[0]? = some (.waitingProduce 9) ∧
      (∀ e, step 8 deadlock16 e = none) := by
  refine ⟨rfl, rfl, rfl, rfl, rfl, rfl, rfl, rfl, fun _ _ => rfl, fun _ => rfl,
    rfl, rfl, rfl, ?_⟩
  apply step_eq_none_of_waiting
  decide

/-- C9 on the program with one producer and nine consumers: while the producer
and consumer 9 are both blocked on `cv_`, consumer 1 completes `consume()` and
its `notify_one` unblocks consumer 9; the producer, the only producer there is,
stays blocked.  In the mirror image, while the consumer and producer 9 are both
blocked, producer 1 completes `produce(11)` and its `notify_one` unblocks
producer 9; the consumer, the only consumer there is, stays blocked. -/
theorem notify_one_absorbed :
    exec 8 (start junk8 10) fillEvents9 = some fullSystem9 ∧
      fullSystem9.threads[0]? = some (.waitingProduce 9) ∧
      fullSystem9.threads[9]? = some .waitingConsume ∧
      step 8 fullSystem9 (.resume 1 9) = some absorbedSystem9 ∧
      absorbedSystem9.returned = [(1, 1)] ∧
      absorbedSystem9.threads[0]? = some (.waitingProduce 9) ∧
      absorbedSystem9.threads[9]? = some .notifiedConsume ∧
      exec 8 (start junk8 17) mirrorFillEvents = some mirrorEmpty ∧
      mirrorEmpty.threads[0]? = some .waitingConsume ∧
      mirrorEmpty.threads[9]? = some (.waitingProduce 19) ∧
      step 8 mirrorEmpty (.resume 1 9) = some mirrorAfterOneProduce ∧
      mirrorAfterOneProduce.threads[0]? = some .waitingConsume ∧
      mirrorAfterOneProduce.threads[9]? = some (.notifiedProduce 19) :=
  ⟨rfl, rfl, rfl, rfl, rfl, rfl, rfl, rfl, rfl, rfl, rfl, rfl, rfl⟩

end ProducerConsumer
